import Mathlib

/-!
Verification of the realmeta content-based image-retrieval pipeline.

Shallow embedding of the Python sources `src/ai/pipeline.py`,
`src/ai/embedding_service.py`, `src/ai/app.py` and `src/ai/images_embed.py`.
External collaborators (the YOLO detector, the timm embedding model, OpenCV
color conversions, the Pinecone client) are modelled as abstract functions;
everything written in the repository itself is translated definition by
definition.
-/

/-- A detector bounding box as consumed by `detect_and_crop`: the four
`box.xyxy` float coordinates (modelled as rationals) and the confidence
score. -/
structure Box where
  x1 : ℚ
  y1 : ℚ
  x2 : ℚ
  y2 : ℚ
  conf : ℚ
  deriving DecidableEq, Repr

/-- Python `area = (x2 - x1) * (y2 - y1)` (pipeline.py line 66). -/
def Box.area (b : Box) : ℚ := (b.x2 - b.x1) * (b.y2 - b.y1)

/-- The `(width, height)` pair returned by `pil_img.size`. -/
structure ImgSize where
  width : ℕ
  height : ℕ
  deriving DecidableEq, Repr

/-- A crop rectangle, the argument of `pil_img.crop((x1, y1, x2, y2))`. -/
structure Rect where
  x1 : ℤ
  y1 : ℤ
  x2 : ℤ
  y2 : ℤ
  deriving DecidableEq, Repr

/-- Python `int(x)` applied to a float truncates toward zero. -/
def pyInt (q : ℚ) : ℤ := if 0 ≤ q then q.floor else q.ceil

/-- One iteration of the best-box loop (pipeline.py lines 64-69):
`if area > best_area: best_area = area; best_box = box`. -/
def selStep (acc : Option Box × ℚ) (b : Box) : Option Box × ℚ :=
  if acc.2 < b.area then (some b, b.area) else acc

/-- The box-selection loop of `detect_and_crop` (pipeline.py lines 60-69),
started from `best_box = None`, `best_area = 0`. -/
def selectBox (boxes : List Box) : Option Box :=
  (boxes.foldl selStep (none, 0)).1

/-- Python `_center_crop` (pipeline.py lines 86-100): `side = min(w, h)`,
`left = (w - side) // 2`, `top = (h - side) // 2`, crop
`(left, top, left + side, top + side)`. -/
def centerCrop (sz : ImgSize) : Rect :=
  let side := min sz.width sz.height
  let left := (sz.width - side) / 2
  let top := (sz.height - side) / 2
  ⟨(left : ℤ), (top : ℤ), ((left + side : ℕ) : ℤ), ((top + side : ℕ) : ℤ)⟩

/-- Python `detect_and_crop` (pipeline.py lines 29-84) with the YOLO
`predict` call factored out: given the image size and the detector's box
list (already filtered by the confidence threshold inside `predict`), it
returns the crop rectangle handed to `pil_img.crop`. The float literal
`0.05` of the source is modelled by the rational it denotes. -/
def detect_and_crop (sz : ImgSize) (boxes : List Box) : Rect :=
  if boxes.length = 0 then centerCrop sz
  else
    match selectBox boxes with
    | none => centerCrop sz
    | some b =>
      let x1 := pyInt b.x1
      let y1 := pyInt b.y1
      let x2 := pyInt b.x2
      let y2 := pyInt b.y2
      let pad_x := pyInt (((x2 - x1 : ℤ) : ℚ) * (5 / 100))
      let pad_y := pyInt (((y2 - y1 : ℤ) : ℚ) * (5 / 100))
      ⟨max 0 (x1 - pad_x), max 0 (y1 - pad_y),
       min (sz.width : ℤ) (x2 + pad_x), min (sz.height : ℤ) (y2 + pad_y)⟩

/-- An error raised by the detector invocation itself
(`self.yolo_model.predict`). -/
structure DetectionError where
  msg : String
  deriving DecidableEq, Repr

/-- Python `detect_and_crop` including the detector call: `predict` either
raises (modelled as `Except.error`) or returns a box list. The body of
`detect_and_crop` contains no try/except, so a raised error passes through
unchanged, while a successful empty box list takes the center-crop fallback
(pipeline.py lines 46-58). -/
def detect_and_crop_run (sz : ImgSize) (det : Except DetectionError (List Box)) :
    Except DetectionError Rect :=
  match det with
  | .error e => .error e
  | .ok boxes => .ok (detect_and_crop sz boxes)

/-- C4: on zero reported detections, `detect_and_crop` returns the
deterministic center-square crop: a square of side `min w h` whose left
offset is `(w - side) / 2` and top offset `(h - side) / 2`. -/
theorem detect_and_crop_nil_center (sz : ImgSize) :
    detect_and_crop sz [] = centerCrop sz ∧
    (detect_and_crop sz []).x1 = ((sz.width - min sz.width sz.height) / 2 : ℕ) ∧
    (detect_and_crop sz []).y1 = ((sz.height - min sz.width sz.height) / 2 : ℕ) ∧
    (detect_and_crop sz []).x2 - (detect_and_crop sz []).x1 = min sz.width sz.height ∧
    (detect_and_crop sz []).y2 - (detect_and_crop sz []).y1 = min sz.width sz.height := by
  refine ⟨rfl, rfl, rfl, ?_, ?_⟩ <;>
    · simp only [detect_and_crop, centerCrop, List.length_nil]
      push_cast
      ring

/-- C5: whenever the selection loop elects a winning box, the padded and
clamped crop rectangle of `detect_and_crop` stays inside the image bounds. -/
theorem detect_and_crop_in_bounds (sz : ImgSize) (boxes : List Box) (b : Box)
    (hb : selectBox boxes = some b) :
    0 ≤ (detect_and_crop sz boxes).x1 ∧ 0 ≤ (detect_and_crop sz boxes).y1 ∧
    (detect_and_crop sz boxes).x2 ≤ sz.width ∧
    (detect_and_crop sz boxes).y2 ≤ sz.height := by
  have hne : boxes.length ≠ 0 := by
    intro h
    rw [List.length_eq_zero] at h
    subst h
    simp [selectBox] at hb
  simp only [detect_and_crop, hne, if_false, hb]
  exact ⟨le_max_left _ _, le_max_left _ _, min_le_left _ _, min_le_left _ _⟩

/-- C5 witness: a single winning box that overflows a 10×10 image on every
side is clamped back inside the bounds. -/
theorem detect_and_crop_in_bounds_witness :
    0 ≤ (detect_and_crop ⟨10, 10⟩ [⟨-2, -3, 100, 50, 9/10⟩]).x1 ∧
    0 ≤ (detect_and_crop ⟨10, 10⟩ [⟨-2, -3, 100, 50, 9/10⟩]).y1 ∧
    (detect_and_crop ⟨10, 10⟩ [⟨-2, -3, 100, 50, 9/10⟩]).x2 ≤ (10 : ℕ) ∧
    (detect_and_crop ⟨10, 10⟩ [⟨-2, -3, 100, 50, 9/10⟩]).y2 ≤ (10 : ℕ) :=
  detect_and_crop_in_bounds ⟨10, 10⟩ _ ⟨-2, -3, 100, 50, 9/10⟩
    (by norm_num [selectBox, selStep, Box.area])

/-- C6: the only condition `detect_and_crop` absorbs internally is the
zero-detection case, answered by the center-crop fallback; an error raised
by the detector call itself propagates to the caller unchanged. -/
theorem detect_and_crop_run_policy (sz : ImgSize) (e : DetectionError) :
    detect_and_crop_run sz (.error e) = .error e ∧
    detect_and_crop_run sz (.ok []) = .ok (centerCrop sz) :=
  ⟨rfl, rfl⟩

/-- Loop invariant of the best-box loop: started from an accumulator
`(some c, c.area)`, the fold either keeps `c` (when no later box strictly
beats its area) or ends at the first box of maximal area among the strict
improvements, ties resolved to the earliest occurrence. -/
theorem foldl_selStep_some (t : List Box) (c : Box) :
    (t.foldl selStep (some c, c.area) = (some c, c.area) ∧
      ∀ j : Fin t.length, (t.get j).area ≤ c.area) ∨
    (∃ i : Fin t.length,
      t.foldl selStep (some c, c.area) = (some (t.get i), (t.get i).area) ∧
      c.area < (t.get i).area ∧
      (∀ j : Fin t.length, (t.get j).area ≤ (t.get i).area) ∧
      (∀ j : Fin t.length, (j : ℕ) < (i : ℕ) → (t.get j).area < (t.get i).area)) := by
  induction t generalizing c with
  | nil => exact Or.inl ⟨rfl, fun j => j.elim0⟩
  | cons b t ih =>
    rw [List.foldl_cons]
    by_cases hcb : c.area < b.area
    · have hstep : selStep (some c, c.area) b = (some b, b.area) := by
        simp [selStep, hcb]
      rw [hstep]
      rcases ih b with ⟨heq, hle⟩ | ⟨i, heq, hlt, hmax, hstrict⟩
      · refine Or.inr ⟨⟨0, Nat.succ_pos _⟩, by simpa using heq, by simpa using hcb, ?_, ?_⟩
        · intro j
          induction j using Fin.cases with
          | zero => simp
          | succ j' => simpa using hle j'
        · intro j hj
          exact absurd hj (by simp)
      · refine Or.inr ⟨i.succ, by simpa using heq, by simpa using hcb.trans hlt, ?_, ?_⟩
        · intro j
          induction j using Fin.cases with
          | zero => simpa using hlt.le
          | succ j' => simpa using hmax j'
        · intro j
          induction j using Fin.cases with
          | zero => intro hj; simpa using hlt
          | succ j' =>
            intro hj
            have hj' : (j' : ℕ) < (i : ℕ) := by simpa using hj
            simpa using hstrict j' hj'
    · have hstep : selStep (some c, c.area) b = (some c, c.area) := by
        simp [selStep, hcb]
      rw [hstep]
      rcases ih c with ⟨heq, hle⟩ | ⟨i, heq, hlt, hmax, hstrict⟩
      · refine Or.inl ⟨heq, ?_⟩
        intro j
        induction j using Fin.cases with
        | zero => simpa using le_of_not_lt hcb
        | succ j' => simpa using hle j'
      · refine Or.inr ⟨i.succ, by simpa using heq, by simpa using hlt, ?_, ?_⟩
        · intro j
          induction j using Fin.cases with
          | zero => simpa using (le_of_not_lt hcb).trans hlt.le
          | succ j' => simpa using hmax j'
        · intro j
          induction j using Fin.cases with
          | zero => intro hj; simpa using lt_of_le_of_lt (le_of_not_lt hcb) hlt
          | succ j' =>
            intro hj
            have hj' : (j' : ℕ) < (i : ℕ) := by simpa using hj
            simpa using hstrict j' hj'

/-- C3: when at least one box passed the confidence threshold and every box
is geometrically valid (positive area, as detector boxes are), the selection
loop elects the box of largest area `(x2 - x1) * (y2 - y1)` — not of highest
confidence — and among boxes of equal maximal area the first-seen one wins. -/
theorem selectBox_picks_largest_area (boxes : List Box)
    (hne : boxes ≠ []) (hpos : ∀ b ∈ boxes, 0 < b.area) :
    ∃ i : Fin boxes.length,
      selectBox boxes = some (boxes.get i) ∧
      (∀ j : Fin boxes.length, (boxes.get j).area ≤ (boxes.get i).area) ∧
      (∀ j : Fin boxes.length, (j : ℕ) < (i : ℕ) →
        (boxes.get j).area < (boxes.get i).area) := by
  cases boxes with
  | nil => exact absurd rfl hne
  | cons b t =>
    have hb : 0 < b.area := hpos b (List.mem_cons_self b t)
    have hstep : selStep (none, 0) b = (some b, b.area) := by
      simp [selStep, hb]
    unfold selectBox
    rw [List.foldl_cons, hstep]
    rcases foldl_selStep_some t b with ⟨heq, hle⟩ | ⟨i, heq, hlt, hmax, hstrict⟩
    · refine ⟨⟨0, Nat.succ_pos _⟩, by simp [heq], ?_, ?_⟩
      · intro j
        induction j using Fin.cases with
        | zero => simp
        | succ j' => simpa using hle j'
      · intro j hj
        exact absurd hj (by simp)
    · refine ⟨i.succ, by simp [heq], ?_, ?_⟩
      · intro j
        induction j using Fin.cases with
        | zero => simpa using hlt.le
        | succ j' => simpa using hmax j'
      · intro j
        induction j using Fin.cases with
        | zero => intro hj; simpa using hlt
        | succ j' =>
          intro hj
          have hj' : (j' : ℕ) < (i : ℕ) := by simpa using hj
          simpa using hstrict j' hj'

/-- C3 witness: of two boxes where the second has lower confidence (3/10
versus 9/10) but larger area (6 versus 1), the loop elects the second. -/
theorem selectBox_picks_largest_area_witness :
    ([(⟨0, 0, 1, 1, 9/10⟩ : Box), ⟨0, 0, 3, 2, 3/10⟩] ≠ [] ∧
      ∀ b ∈ [(⟨0, 0, 1, 1, 9/10⟩ : Box), ⟨0, 0, 3, 2, 3/10⟩], 0 < b.area) ∧
    ∃ i : Fin ([(⟨0, 0, 1, 1, 9/10⟩ : Box), ⟨0, 0, 3, 2, 3/10⟩]).length,
      selectBox [(⟨0, 0, 1, 1, 9/10⟩ : Box), ⟨0, 0, 3, 2, 3/10⟩] =
        some (([(⟨0, 0, 1, 1, 9/10⟩ : Box), ⟨0, 0, 3, 2, 3/10⟩]).get i) ∧
      (∀ j : Fin ([(⟨0, 0, 1, 1, 9/10⟩ : Box), ⟨0, 0, 3, 2, 3/10⟩]).length,
        (([(⟨0, 0, 1, 1, 9/10⟩ : Box), ⟨0, 0, 3, 2, 3/10⟩]).get j).area ≤
        (([(⟨0, 0, 1, 1, 9/10⟩ : Box), ⟨0, 0, 3, 2, 3/10⟩]).get i).area) ∧
      (∀ j : Fin ([(⟨0, 0, 1, 1, 9/10⟩ : Box), ⟨0, 0, 3, 2, 3/10⟩]).length,
        (j : ℕ) < (i : ℕ) →
        (([(⟨0, 0, 1, 1, 9/10⟩ : Box), ⟨0, 0, 3, 2, 3/10⟩]).get j).area <
          (([(⟨0, 0, 1, 1, 9/10⟩ : Box), ⟨0, 0, 3, 2, 3/10⟩]).get i).area) :=
  ⟨⟨by simp, by norm_num [Box.area]⟩,
    selectBox_picks_largest_area _ (by simp) (by norm_num [Box.area])⟩

/-- Euclidean norm `np.linalg.norm(vec)` of a feature vector. -/
noncomputable def l2norm (v : List ℝ) : ℝ :=
  Real.sqrt ((v.map fun x => x * x).sum)

/-- Python `normalize_vector` (embedding_service.py lines 90-103):
`norm = np.linalg.norm(vec); if norm > 0: vec = vec / norm; return vec`. -/
noncomputable def normalize_vector (v : List ℝ) : List ℝ :=
  if 0 < l2norm v then v.map fun x => x / l2norm v else v

/-- Python `generate_embedding` (embedding_service.py lines 105-124):
preprocess the image to a tensor, extract raw features through the model
(`preprocess` and `extract` stand for the black-box resize/standardize step
and the pretrained network), then L2-normalize. -/
noncomputable def generate_embedding {Img Tensor : Type} (preprocess : Img → Tensor)
    (extract : Tensor → List ℝ) (img : Img) : List ℝ :=
  normalize_vector (extract (preprocess img))

/-- Python `get_embedding_dim` (embedding_service.py lines 126-133): one
dummy forward pass through the model; the reported dimension is the length
of the resulting raw feature vector. -/
def get_embedding_dim {Tensor : Type} (extract : Tensor → List ℝ) (dummy : Tensor) : ℕ :=
  (extract dummy).length

/-- Sums of squares are nonnegative, hence so is the Euclidean norm. -/
theorem l2norm_nonneg (v : List ℝ) : 0 ≤ l2norm v := Real.sqrt_nonneg _

/-- Dividing a vector by its own (positive) Euclidean norm yields a vector
of Euclidean norm one. -/
theorem l2norm_map_div (v : List ℝ) (c : ℝ) (hc : 0 < c) (hv : l2norm v = c) :
    l2norm (v.map fun x => x / c) = 1 := by
  have hnn : 0 ≤ (v.map fun x => x * x).sum := by
    apply List.sum_nonneg
    intro x hx
    obtain ⟨y, _, rfl⟩ := List.mem_map.mp hx
    exact mul_self_nonneg y
  have hS : (v.map fun x => x * x).sum = c * c := by
    rw [← hv, l2norm]
    exact (Real.mul_self_sqrt hnn).symm
  unfold l2norm
  rw [List.map_map]
  have hfun : ((fun x => x * x) ∘ fun x => x / c) = fun x : ℝ => (x * x) * (1 / (c * c)) := by
    funext x
    field_simp
  rw [hfun, List.sum_map_mul_right, hS]
  have : c * c * (1 / (c * c)) = 1 := by
    field_simp
  rw [this, Real.sqrt_one]

/-- `normalize_vector` preserves the length of its argument. -/
theorem normalize_vector_length (v : List ℝ) :
    (normalize_vector v).length = v.length := by
  unfold normalize_vector
  split <;> simp

/-- C2: the vector returned by `generate_embedding` has Euclidean norm one
whenever the raw feature vector has nonzero norm, and in the degenerate
zero-norm case the raw vector is returned unchanged — `normalize_vector`
divides by the norm exactly when the norm is nonzero. -/
theorem generate_embedding_unit_norm {Img Tensor : Type} (preprocess : Img → Tensor)
    (extract : Tensor → List ℝ) (img : Img) :
    (l2norm (extract (preprocess img)) ≠ 0 ∧
      l2norm (generate_embedding preprocess extract img) = 1) ∨
    (l2norm (extract (preprocess img)) = 0 ∧
      generate_embedding preprocess extract img = extract (preprocess img)) := by
  by_cases h : l2norm (extract (preprocess img)) = 0
  · right
    refine ⟨h, ?_⟩
    simp [generate_embedding, normalize_vector, h]
  · left
    have hpos : 0 < l2norm (extract (preprocess img)) :=
      lt_of_le_of_ne (l2norm_nonneg _) (Ne.symm h)
    refine ⟨h, ?_⟩
    simp only [generate_embedding, normalize_vector, if_pos hpos]
    exact l2norm_map_div _ _ hpos rfl

/-- The startup calls of app.py lines 36-57, in source order: load the
models, discover the embedding dimension (line 46), list the existing
indexes (line 47), create the index when missing (lines 49-55), open the
index handle (line 57). -/
inductive StartupCall
  | loadModels
  | discoverDim
  | listIndexes
  | createIndex
  | openIndex
  deriving DecidableEq, Repr

/-- The straight-line startup sequence of app.py lines 36-57. -/
def app_startup : List StartupCall :=
  [.loadModels, .discoverDim, .listIndexes, .createIndex, .openIndex]

/-- app.py line 46: `EMBED_DIM = embed_service.get_embedding_dim()`. -/
def EMBED_DIM {Tensor : Type} (extract : Tensor → List ℝ) (dummy : Tensor) : ℕ :=
  get_embedding_dim extract dummy

/-- app.py lines 50-55: `pc.create_index(..., dimension=EMBED_DIM, ...)`. -/
def create_index_dimension {Tensor : Type} (extract : Tensor → List ℝ)
    (dummy : Tensor) : ℕ :=
  EMBED_DIM extract dummy

/-- C7: the collection is created with exactly the dimension returned by
`get_embedding_dim`, the discovery call precedes the index-creation call in
the startup order, and — the embedding model being a black box of fixed
output width — every vector subsequently upserted or queried, being a
`generate_embedding` result, has exactly that dimension. -/
theorem index_dimension_invariant {Img Tensor : Type} (preprocess : Img → Tensor)
    (extract : Tensor → List ℝ) (dummy : Tensor)
    (hfixed : ∀ t, (extract t).length = (extract dummy).length) :
    create_index_dimension extract dummy = get_embedding_dim extract dummy ∧
    app_startup.indexOf .discoverDim < app_startup.indexOf .createIndex ∧
    ∀ img : Img, (generate_embedding preprocess extract img).length =
      create_index_dimension extract dummy := by
  refine ⟨rfl, by decide, fun img => ?_⟩
  rw [generate_embedding, normalize_vector_length]
  exact hfixed _

/-- C7 witness: a two-dimensional stand-in model; the created collection has
dimension two and so does every embedding. -/
theorem index_dimension_invariant_witness :
    create_index_dimension (fun _ : Unit => [(1 : ℝ), 0]) () =
      get_embedding_dim (fun _ : Unit => [(1 : ℝ), 0]) () ∧
    app_startup.indexOf .discoverDim < app_startup.indexOf .createIndex ∧
    ∀ img : Unit,
      (generate_embedding (fun _ : Unit => ()) (fun _ : Unit => [(1 : ℝ), 0]) img).length =
        create_index_dimension (fun _ : Unit => [(1 : ℝ), 0]) () :=
  index_dimension_invariant (fun _ : Unit => ()) (fun _ : Unit => [(1 : ℝ), 0]) ()
    (fun _ => rfl)

/-- An 8-bit RGB pixel. -/
structure RGBPix where
  r : ℕ
  g : ℕ
  b : ℕ
  deriving DecidableEq, Repr

/-- A pixel of the LAB color space (`cv2.COLOR_BGR2LAB`): one luminance
channel `lum` and the two chrominance channels `ca` and `cb`. -/
structure LabPix where
  lum : ℕ
  ca : ℕ
  cb : ℕ
  deriving DecidableEq, Repr

/-- An in-memory RGB raster: the `(width, height)` size and the flattened
pixel grid. -/
structure ImageRGB where
  width : ℕ
  height : ℕ
  pix : List RGBPix
  deriving DecidableEq, Repr

/-- `cv2.split(lab)` (pipeline.py line 120): the three channel planes of a
LAB image. -/
def splitLab (img : List LabPix) : List ℕ × List ℕ × List ℕ :=
  (img.map LabPix.lum, img.map LabPix.ca, img.map LabPix.cb)

/-- `cv2.merge((l, a, b))` (pipeline.py line 126): reassemble a LAB image
from its channel planes. -/
def mergeLab (lc ac bc : List ℕ) : List LabPix :=
  (lc.zip (ac.zip bc)).map fun p => ⟨p.1, p.2.1, p.2.2⟩

/-- The LAB stage of `normalize_color` (pipeline.py lines 117-126): convert
every pixel to LAB, split the planes, equalize only the L plane, merge. The
OpenCV primitives are abstract: `rgb2lab` is the per-pixel color conversion
and `eqHist` is `cv2.equalizeHist`, a global remap of the plane it is
given. -/
def labStage (rgb2lab : RGBPix → LabPix) (eqHist : List ℕ → List ℕ)
    (img : ImageRGB) : List LabPix :=
  let lab := img.pix.map rgb2lab
  let chans := splitLab lab
  mergeLab (eqHist chans.1) chans.2.1 chans.2.2

/-- Python `normalize_color` (pipeline.py lines 102-132): the LAB stage
followed by the conversion back to RGB (`lab2rgb` per pixel); the image size
is untouched. -/
def normalize_color (rgb2lab : RGBPix → LabPix) (lab2rgb : LabPix → RGBPix)
    (eqHist : List ℕ → List ℕ) (img : ImageRGB) : ImageRGB :=
  ⟨img.width, img.height, (labStage rgb2lab eqHist img).map lab2rgb⟩

/-- Merging channel planes of equal length and projecting the luminance
plane back out returns the first plane. -/
theorem mergeLab_lum (lc ac bc : List ℕ) (ha : ac.length = lc.length)
    (hb : bc.length = lc.length) : (mergeLab lc ac bc).map LabPix.lum = lc := by
  induction lc generalizing ac bc with
  | nil => simp [mergeLab]
  | cons x t ih =>
    cases ac with
    | nil => simp at ha
    | cons ya ta =>
      cases bc with
      | nil => simp at hb
      | cons yb tb =>
        simp only [mergeLab, List.zip_cons_cons, List.map_cons, List.length_cons] at *
        exact congrArg (x :: ·) (ih ta tb (by omega) (by omega))

/-- Merging channel planes of equal length and projecting the first
chrominance plane back out returns the second plane. -/
theorem mergeLab_ca (lc ac bc : List ℕ) (ha : ac.length = lc.length)
    (hb : bc.length = lc.length) : (mergeLab lc ac bc).map LabPix.ca = ac := by
  induction lc generalizing ac bc with
  | nil =>
    cases ac with
    | nil => simp [mergeLab]
    | cons ya ta => simp at ha
  | cons x t ih =>
    cases ac with
    | nil => simp at ha
    | cons ya ta =>
      cases bc with
      | nil => simp at hb
      | cons yb tb =>
        simp only [mergeLab, List.zip_cons_cons, List.map_cons, List.length_cons] at *
        exact congrArg (ya :: ·) (ih ta tb (by omega) (by omega))

/-- Merging channel planes of equal length and projecting the second
chrominance plane back out returns the third plane. -/
theorem mergeLab_cb (lc ac bc : List ℕ) (ha : ac.length = lc.length)
    (hb : bc.length = lc.length) : (mergeLab lc ac bc).map LabPix.cb = bc := by
  induction lc generalizing ac bc with
  | nil =>
    cases bc with
    | nil => simp [mergeLab]
    | cons yb tb => simp at hb
  | cons x t ih =>
    cases ac with
    | nil => simp at ha
    | cons ya ta =>
      cases bc with
      | nil => simp at hb
      | cons yb tb =>
        simp only [mergeLab, List.zip_cons_cons, List.map_cons, List.length_cons] at *
        exact congrArg (yb :: ·) (ih ta tb (by omega) (by omega))

/-- C8: `normalize_color` keeps the image size (RGB in, RGB out, same
width, height and pixel count), and in the LAB color space only the
luminance plane is altered — it becomes the histogram-equalized original
luminance plane — while both chrominance planes pass through unchanged. The
hypothesis states the one fact used about `cv2.equalizeHist`: it maps a
plane to a plane of the same length. -/
theorem normalize_color_contract (rgb2lab : RGBPix → LabPix)
    (lab2rgb : LabPix → RGBPix) (eqHist : List ℕ → List ℕ)
    (heq : ∀ c : List ℕ, (eqHist c).length = c.length) (img : ImageRGB) :
    (normalize_color rgb2lab lab2rgb eqHist img).width = img.width ∧
    (normalize_color rgb2lab lab2rgb eqHist img).height = img.height ∧
    (normalize_color rgb2lab lab2rgb eqHist img).pix.length = img.pix.length ∧
    (labStage rgb2lab eqHist img).map LabPix.lum =
      eqHist ((img.pix.map rgb2lab).map LabPix.lum) ∧
    (labStage rgb2lab eqHist img).map LabPix.ca =
      (img.pix.map rgb2lab).map LabPix.ca ∧
    (labStage rgb2lab eqHist img).map LabPix.cb =
      (img.pix.map rgb2lab).map LabPix.cb := by
  have hl : ((img.pix.map rgb2lab).map LabPix.ca).length =
      (eqHist ((img.pix.map rgb2lab).map LabPix.lum)).length := by
    simp [heq]
  have hb : ((img.pix.map rgb2lab).map LabPix.cb).length =
      (eqHist ((img.pix.map rgb2lab).map LabPix.lum)).length := by
    simp [heq]
  have h1 := mergeLab_lum (eqHist ((img.pix.map rgb2lab).map LabPix.lum))
    ((img.pix.map rgb2lab).map LabPix.ca) ((img.pix.map rgb2lab).map LabPix.cb) hl hb
  have h2 := mergeLab_ca (eqHist ((img.pix.map rgb2lab).map LabPix.lum))
    ((img.pix.map rgb2lab).map LabPix.ca) ((img.pix.map rgb2lab).map LabPix.cb) hl hb
  have h3 := mergeLab_cb (eqHist ((img.pix.map rgb2lab).map LabPix.lum))
    ((img.pix.map rgb2lab).map LabPix.ca) ((img.pix.map rgb2lab).map LabPix.cb) hl hb
  have hstage : labStage rgb2lab eqHist img =
      mergeLab (eqHist ((img.pix.map rgb2lab).map LabPix.lum))
        ((img.pix.map rgb2lab).map LabPix.ca)
        ((img.pix.map rgb2lab).map LabPix.cb) := rfl
  refine ⟨rfl, rfl, ?_, ?_, ?_, ?_⟩
  · have h1l := congrArg List.length h1
    rw [List.length_map] at h1l
    show ((labStage rgb2lab eqHist img).map lab2rgb).length = img.pix.length
    rw [List.length_map, hstage, h1l, heq, List.length_map, List.length_map]
  · rw [hstage]; exact h1
  · rw [hstage]; exact h2
  · rw [hstage]; exact h3

/-- C8 witness: a concrete 2×1 image with the identity stand-ins for the
OpenCV conversions keeps its size and chrominance planes. -/
theorem normalize_color_contract_witness :
    (normalize_color (fun p => ⟨p.r, p.g, p.b⟩) (fun q => ⟨q.lum, q.ca, q.cb⟩)
      (fun c => c) ⟨2, 1, [⟨1, 2, 3⟩, ⟨4, 5, 6⟩]⟩).width = (⟨2, 1, [⟨1, 2, 3⟩, ⟨4, 5, 6⟩]⟩ : ImageRGB).width ∧
    (normalize_color (fun p => ⟨p.r, p.g, p.b⟩) (fun q => ⟨q.lum, q.ca, q.cb⟩)
      (fun c => c) ⟨2, 1, [⟨1, 2, 3⟩, ⟨4, 5, 6⟩]⟩).height = (⟨2, 1, [⟨1, 2, 3⟩, ⟨4, 5, 6⟩]⟩ : ImageRGB).height ∧
    (normalize_color (fun p => ⟨p.r, p.g, p.b⟩) (fun q => ⟨q.lum, q.ca, q.cb⟩)
      (fun c => c) ⟨2, 1, [⟨1, 2, 3⟩, ⟨4, 5, 6⟩]⟩).pix.length = (⟨2, 1, [⟨1, 2, 3⟩, ⟨4, 5, 6⟩]⟩ : ImageRGB).pix.length ∧
    (labStage (fun p => ⟨p.r, p.g, p.b⟩) (fun c => c) ⟨2, 1, [⟨1, 2, 3⟩, ⟨4, 5, 6⟩]⟩).map LabPix.lum =
      (fun c : List ℕ => c) (((⟨2, 1, [⟨1, 2, 3⟩, ⟨4, 5, 6⟩]⟩ : ImageRGB).pix.map
        (fun p => (⟨p.r, p.g, p.b⟩ : LabPix))).map LabPix.lum) ∧
    (labStage (fun p => ⟨p.r, p.g, p.b⟩) (fun c => c) ⟨2, 1, [⟨1, 2, 3⟩, ⟨4, 5, 6⟩]⟩).map LabPix.ca =
      ((⟨2, 1, [⟨1, 2, 3⟩, ⟨4, 5, 6⟩]⟩ : ImageRGB).pix.map
        (fun p => (⟨p.r, p.g, p.b⟩ : LabPix))).map LabPix.ca ∧
    (labStage (fun p => ⟨p.r, p.g, p.b⟩) (fun c => c) ⟨2, 1, [⟨1, 2, 3⟩, ⟨4, 5, 6⟩]⟩).map LabPix.cb =
      ((⟨2, 1, [⟨1, 2, 3⟩, ⟨4, 5, 6⟩]⟩ : ImageRGB).pix.map
        (fun p => (⟨p.r, p.g, p.b⟩ : LabPix))).map LabPix.cb :=
  normalize_color_contract (fun p => ⟨p.r, p.g, p.b⟩) (fun q => ⟨q.lum, q.ca, q.cb⟩)
    (fun c => c) (fun _ => rfl) ⟨2, 1, [⟨1, 2, 3⟩, ⟨4, 5, 6⟩]⟩

/-- The `pil_img.mode` tag checked by `process_image`. -/
inductive PILMode
  | RGB
  | other (tag : String)
  deriving DecidableEq, Repr

/-- A PIL image as the pipeline sees it: its mode tag plus the underlying
raster. -/
structure PILImage where
  mode : PILMode
  raster : ImageRGB
  deriving DecidableEq, Repr

/-- Python `process_image` (pipeline.py lines 147-179): ensure RGB
(`convert('RGB')` only when the mode differs), then the optional
detect-and-crop step, then the optional color-normalization step; no resize
and no further transformation — resizing is delegated to the embedding
service. `convertRGB`, `detectCrop` and `colorNorm` stand for the
subroutines `convert`, `detect_and_crop` and `normalize_color`. -/
def process_image (convertRGB detectCrop colorNorm : PILImage → PILImage)
    (img : PILImage) (apply_detection apply_color_norm : Bool) : PILImage :=
  let i1 := if img.mode ≠ PILMode.RGB then convertRGB img else img
  let i2 := if apply_detection then detectCrop i1 else i1
  if apply_color_norm then colorNorm i2 else i2

/-- C9: on an image already in RGB mode, `process_image` with both flags
off returns its input unchanged — the fixed step order performs no resize
and no other transformation. -/
theorem process_image_identity (convertRGB detectCrop colorNorm : PILImage → PILImage)
    (img : PILImage) (hmode : img.mode = PILMode.RGB) :
    process_image convertRGB detectCrop colorNorm img false false = img := by
  simp [process_image, hmode]

/-- C9 witness: a concrete RGB image passes through `process_image`
untouched even when the three subroutines would each wipe the image. -/
theorem process_image_identity_witness :
    process_image (fun _ => ⟨.RGB, ⟨0, 0, []⟩⟩) (fun _ => ⟨.RGB, ⟨0, 0, []⟩⟩)
      (fun _ => ⟨.RGB, ⟨0, 0, []⟩⟩) ⟨.RGB, ⟨1, 1, [⟨7, 8, 9⟩]⟩⟩ false false =
      ⟨.RGB, ⟨1, 1, [⟨7, 8, 9⟩]⟩⟩ :=
  process_image_identity (fun _ => ⟨.RGB, ⟨0, 0, []⟩⟩) (fun _ => ⟨.RGB, ⟨0, 0, []⟩⟩)
    (fun _ => ⟨.RGB, ⟨0, 0, []⟩⟩) ⟨.RGB, ⟨1, 1, [⟨7, 8, 9⟩]⟩⟩ rfl

/-- The `(apply_detection, apply_color_norm)` pair passed to
`process_image` by the `/index` endpoint (app.py line 96):
`apply_detection=False, apply_color_norm=True`. -/
def index_image_flags : Bool × Bool := (false, true)

/-- The `(apply_detection, apply_color_norm)` pair passed to
`process_image` by the `/search` endpoint (app.py line 130):
`apply_detection=False, apply_color_norm=True`. -/
def search_image_flags : Bool × Bool := (false, true)

/-- The `(apply_detection, apply_color_norm)` pair passed to
`process_image` by the bulk indexer `index_folder`
(images_embed.py line 45): `apply_detection=True, apply_color_norm=True`. -/
def index_folder_flags : Bool × Bool := (true, true)

/-- The preprocessing-plus-embedding path of an endpoint: `process_image`
under the endpoint's flag pair, then `generate_embedding` (app.py
lines 96-97 and 130-131). -/
noncomputable def endpoint_embedding {Tensor : Type}
    (convertRGB detectCrop colorNorm : PILImage → PILImage)
    (preprocess : PILImage → Tensor) (extract : Tensor → List ℝ)
    (flags : Bool × Bool) (img : PILImage) : List ℝ :=
  generate_embedding preprocess extract
    (process_image convertRGB detectCrop colorNorm img flags.1 flags.2)

/-- C1 counterexample: the claim covers every index-time call site,
including the bulk indexer `index_folder`; its flag pair
`apply_detection=True, apply_color_norm=True` differs from the flag pair
passed at query time by `/search`. -/
theorem index_folder_flags_ne_search_flags :
    index_folder_flags ≠ search_image_flags := by
  decide

/-- C1 (amended): restricted to the HTTP endpoints of app.py, the claim
holds — the `/index` endpoint passes exactly the flag values that the
`/search` endpoint passes, so the index-time and query-time
preprocessing-plus-embedding paths are the same function; the bulk indexer
`index_folder` is the exception recorded in the counterexample. -/
theorem endpoint_embedding_paths_agree {Tensor : Type} :
    index_image_flags = search_image_flags ∧
    ∀ (convertRGB detectCrop colorNorm : PILImage → PILImage)
      (preprocess : PILImage → Tensor) (extract : Tensor → List ℝ)
      (img : PILImage),
      endpoint_embedding convertRGB detectCrop colorNorm preprocess extract
          index_image_flags img =
        endpoint_embedding convertRGB detectCrop colorNorm preprocess extract
          search_image_flags img :=
  ⟨rfl, fun _ _ _ _ _ _ => rfl⟩

/-- Python `os.path.basename` applied to the client-supplied filename: the
part after the last forward slash. -/
def basename (s : String) : String := (s.splitOn "/").getLastD ""

/-- Python `save_upload_file` (app.py lines 61-68): the stored filename is
`f"{uuid.uuid4().hex}_{os.path.basename(file.filename)}"`, where `u` stands
for the freshly drawn `uuid4().hex` value. -/
def save_upload_filename (u : String) (origName : String) : String :=
  u ++ "_" ++ basename origName

/-- A filesystem path kept as its components: `os.path.join(dir, fname)`
appends a component, `os.path.basename` takes the last one. -/
def mkPath (dir : List String) (fname : String) : List String := dir ++ [fname]

/-- Python `os.path.basename` on a component path. -/
def pathBasename (p : List String) : String := p.getLastD ""

/-- The form fields accepted by the `/index` endpoint (app.py lines 73-79):
the uploaded file plus four metadata strings. No identifier field exists,
so a caller cannot supply an id. -/
structure IndexRequest where
  fileBytes : List ℕ
  filename : String
  title : String
  artist : String
  year : String
  category : String
  deriving DecidableEq, Repr

/-- app.py lines 85-99: the file is saved under
`images/museum/<stored filename>` and
`item_id = os.path.basename(image_path)`. -/
def index_endpoint_item_id (u : String) (req : IndexRequest) : String :=
  pathBasename (mkPath ["images", "museum"] (save_upload_filename u req.filename))

/-- C10: the `/index` endpoint fabricates the item id itself — the stored
filename, which prefixes the original name's basename with the fresh
`uuid4().hex` draw — so two calls carrying a byte-identical file and
identical metadata but distinct fresh uuid draws produce two distinct item
ids, and the replace branch of the idempotent `upsert` is never exercised
through this endpoint. -/
theorem index_item_id_fresh (u1 u2 : String) (req : IndexRequest)
    (hne : u1 ≠ u2) :
    index_endpoint_item_id u1 req = save_upload_filename u1 req.filename ∧
    index_endpoint_item_id u1 req ≠ index_endpoint_item_id u2 req := by
  have hid : ∀ u : String,
      index_endpoint_item_id u req = save_upload_filename u req.filename := by
    intro u
    simp [index_endpoint_item_id, pathBasename, mkPath]
  refine ⟨hid u1, ?_⟩
  rw [hid u1, hid u2]
  intro hEq
  apply hne
  apply String.ext
  have hdata := congrArg String.data hEq
  simp only [save_upload_filename, String.data_append] at hdata
  have := List.append_cancel_right
    (by simpa [List.append_assoc] using hdata :
      u1.data ++ ("_".data ++ (basename req.filename).data) =
        u2.data ++ ("_".data ++ (basename req.filename).data))
  exact this

/-- C10 witness: two concrete distinct uuid hex draws over the same request
yield distinct item ids. -/
theorem index_item_id_fresh_witness :
    index_endpoint_item_id "0f1e2d3c4b5a69788796a5b4c3d2e1f0"
        ⟨[1, 2, 3], "cat.jpg", "t", "a", "1900", "c"⟩ =
      save_upload_filename "0f1e2d3c4b5a69788796a5b4c3d2e1f0" "cat.jpg" ∧
    index_endpoint_item_id "0f1e2d3c4b5a69788796a5b4c3d2e1f0"
        ⟨[1, 2, 3], "cat.jpg", "t", "a", "1900", "c"⟩ ≠
      index_endpoint_item_id "00000000000000000000000000000000"
        ⟨[1, 2, 3], "cat.jpg", "t", "a", "1900", "c"⟩ :=
  index_item_id_fresh "0f1e2d3c4b5a69788796a5b4c3d2e1f0"
    "00000000000000000000000000000000" ⟨[1, 2, 3], "cat.jpg", "t", "a", "1900", "c"⟩
    (by decide)
